import Mathlib

/-!
Verification development for the `tracing-toolbox` repository
(`tracing-tunnel` + `tracing-capture` crates).

The data model (`TracedValue`, `TracedValues`, the wire alphabet
`TracingEvent`) and the operations under scrutiny (the value conversions of
`tunnel/src/value.rs`, the receiver of `tunnel/src/receiver`, the sender's
field visitor, the capture accessors of `capture/src/lib.rs`, and the
scanner of `capture/src/predicates/ext.rs`) are embedded shallowly below.
Components whose Rust sources are present are translated from them;
components whose sources are absent from the snapshot (the receiver module
body, the wire types module, the sender) are modelled from the
specification and marked as such in their doc comments.
-/

/-- Model of a Rust `f64` restricted to the operations the code performs on
it (construction, pass-through, and IEEE-754 equality `==`).  A float is
either a NaN, a signed infinity, or a finite dyadic rational (both IEEE
zeroes are identified, which is harmless because they compare equal).  IEEE
equality is `F64.beq`: NaN compares unequal to everything, including
itself. -/
inductive F64 where
  | nan : F64
  | inf (neg : Bool) : F64
  | finite (q : Rat) : F64

/-- IEEE-754 equality on the `F64` model: the semantics of Rust `f64 == f64`. -/
def F64.beq : F64 → F64 → Bool
  | .nan, _ => false
  | _, .nan => false
  | .inf a, .inf b => decide (a = b)
  | .finite a, .finite b => decide (a = b)
  | _, _ => false

/-- Error chain recorded as a value (`TracedError` in `tunnel/src/value.rs`):
a message plus an optional boxed source. -/
inductive TracedError where
  | mk (message : String) (source : Option TracedError) : TracedError

/-- Value recorded in a tracing span or event (`TracedValue` in
`tunnel/src/value.rs`).  `Int` carries an `i128` (embedded as `Int`),
`UInt` a `u128` (embedded as `Nat`), `Object` carries the debug string of a
`DebugObject`. -/
inductive TracedValue where
  | bool (b : Bool) : TracedValue
  | int (i : Int) : TracedValue
  | uint (u : Nat) : TracedValue
  | float (f : F64) : TracedValue
  | string (s : String) : TracedValue
  | object (debugRepr : String) : TracedValue
  | error (e : TracedError) : TracedValue

/-- Smallest `i64` value, as an `Int`. -/
def i64_min : Int := -(2 ^ 63)

/-- Largest `i64` value, as an `Int`. -/
def i64_max : Int := 2 ^ 63 - 1

/-- `impl From<bool> for TracedValue` (macro arm without widening). -/
def TracedValue.from_bool (b : Bool) : TracedValue := .bool b

/-- `impl From<i64> for TracedValue`: widening `i64 -> i128` on construction. -/
def TracedValue.from_i64 (x : Int) : TracedValue := .int x

/-- `impl From<i128> for TracedValue`. -/
def TracedValue.from_i128 (x : Int) : TracedValue := .int x

/-- `impl From<u64> for TracedValue`: widening `u64 -> u128` on construction. -/
def TracedValue.from_u64 (n : Nat) : TracedValue := .uint n

/-- `impl From<u128> for TracedValue`. -/
def TracedValue.from_u128 (n : Nat) : TracedValue := .uint n

/-- `impl From<f64> for TracedValue`. -/
def TracedValue.from_f64 (f : F64) : TracedValue := .float f

/-- `impl From<&str> for TracedValue`. -/
def TracedValue.from_str (s : String) : TracedValue := .string s

/-- `impl FromTracedValue for bool` (`try_as::<bool>`): variant match, no conversion. -/
def TracedValue.from_value_bool : TracedValue → Option Bool
  | .bool b => some b
  | _ => none

/-- `impl FromTracedValue for i64` (`try_as::<i64>`): variant match, then
`i128 -> i64` narrowing via `TryFrom`, which fails outside the `i64` range. -/
def TracedValue.from_value_i64 : TracedValue → Option Int
  | .int x => if i64_min ≤ x ∧ x ≤ i64_max then some x else none
  | _ => none

/-- `impl FromTracedValue for i128` (`try_as::<i128>`): variant match, no conversion. -/
def TracedValue.from_value_i128 : TracedValue → Option Int
  | .int x => some x
  | _ => none

/-- `impl FromTracedValue for u64` (`try_as::<u64>`): variant match, then
`u128 -> u64` narrowing via `TryFrom`, which fails at `2 ^ 64` and above. -/
def TracedValue.from_value_u64 : TracedValue → Option Nat
  | .uint n => if n < 2 ^ 64 then some n else none
  | _ => none

/-- `impl FromTracedValue for u128` (`try_as::<u128>`). -/
def TracedValue.from_value_u128 : TracedValue → Option Nat
  | .uint n => some n
  | _ => none

/-- `impl FromTracedValue for f64` (`try_as::<f64>`): variant match, no conversion. -/
def TracedValue.from_value_f64 : TracedValue → Option F64
  | .float f => some f
  | _ => none

/-- `impl FromTracedValue for str` (`try_as::<str>`): variant match on `String`. -/
def TracedValue.from_value_str : TracedValue → Option String
  | .string s => some s
  | _ => none

/-- `impl PartialEq<bool> for TracedValue`. -/
def TracedValue.eq_bool : TracedValue → Bool → Bool
  | .bool b, other => decide (b = other)
  | _, _ => false

/-- `impl PartialEq<i64> for TracedValue`: widen the scalar to `i128`
(`i128::from`), then compare with the carried value. -/
def TracedValue.eq_i64 : TracedValue → Int → Bool
  | .int y, other => decide (y = other)
  | _, _ => false

/-- `impl PartialEq<i128> for TracedValue`. -/
def TracedValue.eq_i128 : TracedValue → Int → Bool
  | .int y, other => decide (y = other)
  | _, _ => false

/-- `impl PartialEq<u64> for TracedValue`: widen the scalar to `u128`, then compare. -/
def TracedValue.eq_u64 : TracedValue → Nat → Bool
  | .uint m, other => decide (m = other)
  | _, _ => false

/-- `impl PartialEq<u128> for TracedValue`. -/
def TracedValue.eq_u128 : TracedValue → Nat → Bool
  | .uint m, other => decide (m = other)
  | _, _ => false

/-- `impl PartialEq<f64> for TracedValue`: the carried float is compared to
the scalar with IEEE equality. -/
def TracedValue.eq_f64 : TracedValue → F64 → Bool
  | .float g, other => F64.beq g other
  | _, _ => false

/-- `impl PartialEq<&str> for TracedValue`. -/
def TracedValue.eq_str : TracedValue → String → Bool
  | .string t, other => decide (t = other)
  | _, _ => false

/-- Insertion-ordered map used throughout (`TracedValues` and the persisted
tables): an association list queried and updated in place. -/
abbrev Entries (κ : Type) (α : Type) : Type := List (κ × α)

/-- First-match lookup in an association list. -/
def alookup {κ α : Type} [DecidableEq κ] (k : κ) : Entries κ α → Option α
  | [] => none
  | (k2, v) :: rest => if k2 = k then some v else alookup k rest

/-- Position-preserving insert-or-replace: a write to an existing key
replaces the value but keeps the original position; a write to a fresh key
appends at the end.  This is the `TracedValues` insertion semantics. -/
def aupsert {κ α : Type} [DecidableEq κ] (k : κ) (v : α) : Entries κ α → Entries κ α
  | [] => [(k, v)]
  | (k2, v2) :: rest => if k2 = k then (k, v) :: rest else (k2, v2) :: aupsert k v rest

/-- Removal of every entry with the given key. -/
def aremove {κ α : Type} [DecidableEq κ] (k : κ) : Entries κ α → Entries κ α
  | [] => []
  | (k2, v2) :: rest => if k2 = k then aremove k rest else (k2, v2) :: aremove k rest

/-- In-place modification of the entries with the given key. -/
def amodify {κ α : Type} [DecidableEq κ] (k : κ) (f : α → α) : Entries κ α → Entries κ α
  | [] => []
  | (k2, v2) :: rest =>
    if k2 = k then (k, f v2) :: amodify k f rest else (k2, v2) :: amodify k f rest

/-- Modelled from the spec: `TracedValues<K>` of the missing wire-types
module (spec section 3.2) — an insertion-ordered mapping from field names to
values, here keyed by `String`. -/
abbrev TracedValues : Type := Entries String TracedValue

/-- Modelled from the spec: `CallSiteKind` of the missing wire-types module
(spec section 3.3). -/
inductive CallSiteKind where
  | span : CallSiteKind
  | event : CallSiteKind

/-- Modelled from the spec: `TracingLevel` of the missing wire-types module
(spec section 3.3). -/
inductive TracingLevel where
  | error : TracingLevel
  | warn : TracingLevel
  | info : TracingLevel
  | debug : TracingLevel
  | trace : TracingLevel

/-- Modelled from the spec: `CallSiteData` of the missing wire-types module
(spec section 3.3) — the immutable per-site descriptor, including the
ordered list of declared field names. -/
structure CallSiteData where
  kind : CallSiteKind
  name : String
  target : String
  level : TracingLevel
  module_path : Option String
  file : Option String
  line : Option Nat
  fields : List String

/-- Modelled from the spec: `TracingEvent` of the missing wire-types module
(spec section 3.4) — the complete wire alphabet.  `MetadataId` and
`RawSpanId` (both `u64`) are embedded as `Nat`. -/
inductive TracingEvent where
  | newCallSite (id : Nat) (data : CallSiteData) : TracingEvent
  | newSpan (id : Nat) (parent_id : Option Nat) (metadata_id : Nat)
      (values : TracedValues) : TracingEvent
  | valuesRecorded (id : Nat) (values : TracedValues) : TracingEvent
  | spanEntered (id : Nat) : TracingEvent
  | spanExited (id : Nat) : TracingEvent
  | spanCloned (id : Nat) : TracingEvent
  | spanDropped (id : Nat) : TracingEvent
  | newEvent (metadata_id : Nat) (parent : Option Nat)
      (values : TracedValues) : TracingEvent

/-- Modelled from the spec: `ReceiveError` of the missing receiver module
(spec section 7) — the exhaustive error kinds of `try_receive`. -/
inductive ReceiveError where
  | unknownMetadataId (id : Nat) : ReceiveError
  | unknownSpanId (id : Nat) : ReceiveError
  | tooManyValues (actual : Nat) (max : Nat) : ReceiveError

/-- Modelled from the spec: `SpanData` of the missing receiver module (spec
section 3.5) — the persisted description of an open span. -/
structure SpanData where
  metadata_id : Nat
  parent_id : Option Nat
  ref_count : Nat
  values : TracedValues

/-- Modelled from the spec: the observable content of a host span handle
held in `LocalSpans` (spec sections 3.5 and 4.2): the reified span's call
site, parent and recorded values.  Enter/exit reach only the host tracing
runtime, which the spec declares out of scope. -/
structure HostSpan where
  metadata_id : Nat
  parent_id : Option Nat
  values : TracedValues

/-- Modelled from the spec: `PersistedMetadata` (spec section 3.5). -/
abbrev PersistedMetadata : Type := Entries Nat CallSiteData

/-- Modelled from the spec: `PersistedSpans` (spec section 3.5). -/
abbrev PersistedSpans : Type := Entries Nat SpanData

/-- Modelled from the spec: `LocalSpans` (spec section 3.5) — the
session-local table of spans reified on the host in this session. -/
abbrev LocalSpans : Type := Entries Nat HostSpan

/-- Modelled from the spec: `TracingEventReceiver` of the missing receiver
module (spec sections 4.2 and 6.3): the receiver state over the metadata it
owns and the two borrowed tables. -/
structure TracingEventReceiver where
  metadata : PersistedMetadata
  spans : PersistedSpans
  local_spans : LocalSpans

/-- Modelled from the spec: `TracingEventReceiver::new` (spec section 6.3). -/
def TracingEventReceiver.new (metadata : PersistedMetadata) (spans : PersistedSpans)
    (local_spans : LocalSpans) : TracingEventReceiver :=
  { metadata := metadata, spans := spans, local_spans := local_spans }

/-- Modelled from the spec: the bounded-fields policy (spec sections 4.2 and
7) — an event carrying more than 32 fields fails with `TooManyValues`. -/
def lengthCheck (values : TracedValues) : Option ReceiveError :=
  if values.length > 32 then some (.tooManyValues values.length 32) else none

/-- Modelled from the spec: the validation half of the missing receiver's
event handling (spec section 4.2 table): referenced metadata ids must be
registered, referenced span ids must be alive, and field counts are bounded.
The first failing check, in the order the spec lists them, is the error
`try_receive` reports. -/
def validateEvent (metadata : PersistedMetadata) (spans : PersistedSpans) :
    TracingEvent → Option ReceiveError
  | .newCallSite _ _ => none
  | .newSpan _ parent_id metadata_id values =>
    if (alookup metadata_id metadata).isNone then some (.unknownMetadataId metadata_id)
    else
      match parent_id with
      | some pid =>
        if (alookup pid spans).isNone then some (.unknownSpanId pid) else lengthCheck values
      | none => lengthCheck values
  | .valuesRecorded id values =>
    if (alookup id spans).isNone then some (.unknownSpanId id) else lengthCheck values
  | .spanEntered id | .spanExited id | .spanCloned id | .spanDropped id =>
    if (alookup id spans).isNone then some (.unknownSpanId id) else none
  | .newEvent metadata_id parent values =>
    if (alookup metadata_id metadata).isNone then some (.unknownMetadataId metadata_id)
    else
      match parent with
      | some pid =>
        if (alookup pid spans).isNone then some (.unknownSpanId pid) else lengthCheck values
      | none => lengthCheck values

/-- Modelled from the spec: merging freshly recorded values into an existing
value map with preserve-position semantics (spec sections 3.2 and 4.2). -/
def mergeValues (base incoming : TracedValues) : TracedValues :=
  incoming.foldl (fun acc kv => aupsert kv.1 kv.2 acc) base

/-- Modelled from the spec: the persisted-state half of the missing
receiver's event handling (spec section 4.2 table), applied only after
validation succeeded.  It updates `PersistedMetadata` and `PersistedSpans`
and never reads the session-local table. -/
def stepPersisted (metadata : PersistedMetadata) (spans : PersistedSpans) :
    TracingEvent → PersistedMetadata × PersistedSpans
  | .newCallSite id data => (aupsert id data metadata, spans)
  | .newSpan id parent_id metadata_id values =>
    (metadata, aupsert id ⟨metadata_id, parent_id, 1, values⟩ spans)
  | .valuesRecorded id values =>
    (metadata, amodify id (fun sd => { sd with values := mergeValues sd.values values }) spans)
  | .spanCloned id =>
    (metadata, amodify id (fun sd => { sd with ref_count := sd.ref_count + 1 }) spans)
  | .spanDropped id =>
    match alookup id spans with
    | some sd =>
      if sd.ref_count ≤ 1 then (metadata, aremove id spans)
      else (metadata, amodify id (fun sd2 => { sd2 with ref_count := sd2.ref_count - 1 }) spans)
    | none => (metadata, spans)
  | _ => (metadata, spans)

/-- Modelled from the spec: lazy reification (spec section 4.2) — when a
persisted span is absent from `LocalSpans`, its missing ancestors are
reified root-first and then the span itself is opened with the metadata,
parent and values of its persisted copy.  The fuel argument bounds the
ancestor walk; it is called with more fuel than any acyclic parent chain
can consume. -/
def reify (spans : PersistedSpans) : Nat → LocalSpans → Nat → LocalSpans
  | 0, ls, _ => ls
  | fuel + 1, ls, id =>
    if (alookup id ls).isSome then ls
    else
      match alookup id spans with
      | none => ls
      | some sd =>
        let ls2 :=
          match sd.parent_id with
          | some pid => reify spans fuel ls pid
          | none => ls
        aupsert id ⟨sd.metadata_id, sd.parent_id, sd.values⟩ ls2

/-- Modelled from the spec: the session-local half of the missing receiver's
event handling (spec section 4.2 table), applied after validation with the
already-updated persisted tables: reify referenced spans, mirror recorded
values on the reified copy, and drop the local entry when a span is
destroyed. -/
def stepLocal (spans : PersistedSpans) (ls : LocalSpans) : TracingEvent → LocalSpans
  | .newSpan id parent_id _ _ =>
    let ls2 :=
      match parent_id with
      | some pid => reify spans (spans.length + 1) ls pid
      | none => ls
    (match alookup id spans with
     | some sd => aupsert id ⟨sd.metadata_id, sd.parent_id, sd.values⟩ ls2
     | none => ls2)
  | .valuesRecorded id values =>
    let ls2 := reify spans (spans.length + 1) ls id
    amodify id (fun hs => { hs with values := mergeValues hs.values values }) ls2
  | .spanEntered id => reify spans (spans.length + 1) ls id
  | .spanExited id => reify spans (spans.length + 1) ls id
  | .spanDropped id => if (alookup id spans).isSome then ls else aremove id ls
  | .newEvent _ parent _ =>
    (match parent with
     | some pid => reify spans (spans.length + 1) ls pid
     | none => ls)
  | _ => ls

/-- Modelled from the spec: `TracingEventReceiver::try_receive` (spec
sections 4.2, 6.3 and 7) — validate the event against the persisted tables,
and only on success commit the persisted and session-local updates.  On
error the state is returned untouched. -/
def try_receive (r : TracingEventReceiver) (event : TracingEvent) :
    Option ReceiveError × TracingEventReceiver :=
  match validateEvent r.metadata r.spans event with
  | some err => (some err, r)
  | none =>
    let ms := stepPersisted r.metadata r.spans event
    (none, ⟨ms.1, ms.2, stepLocal ms.2 r.local_spans event⟩)

/-- Modelled from the spec: `TracingEventReceiver::receive` (spec section
4.2) — swallow the error (logged at warn level in the source) and keep the
resulting state. -/
def receive (r : TracingEventReceiver) (event : TracingEvent) : TracingEventReceiver :=
  (try_receive r event).2

/-- Modelled from the spec: `TracingEventReceiver::persist_metadata` (spec
section 4.3) — snapshot all call-site data observed so far. -/
def persist_metadata (r : TracingEventReceiver) : PersistedMetadata := r.metadata

/-- Modelled from the spec: `TracingEventReceiver::persist_spans` (spec
section 4.3) — return the current open-span table. -/
def persist_spans (r : TracingEventReceiver) : PersistedSpans := r.spans

/-- A single receiver consuming a whole event stream from an empty state. -/
def runAll (events : List TracingEvent) : TracingEventReceiver :=
  events.foldl receive (TracingEventReceiver.new [] [] [])

/-- A receiver consuming the first `i` events from an empty state, then a
persistence checkpoint: a second receiver is constructed from the persisted
metadata and spans together with a fresh `LocalSpans`, and consumes the
rest of the stream. -/
def runSplit (events : List TracingEvent) (i : Nat) : TracingEventReceiver :=
  let r1 := (events.take i).foldl receive (TracingEventReceiver.new [] [] [])
  let r2 := TracingEventReceiver.new (persist_metadata r1) (persist_spans r1) []
  (events.drop i).foldl receive r2

/-- The persisted-state trajectory of a receiver: the fold of the validated
persisted-step over a stream, ignoring the session-local table. -/
def persistedRun (ms : PersistedMetadata × PersistedSpans)
    (events : List TracingEvent) : PersistedMetadata × PersistedSpans :=
  events.foldl
    (fun ms e =>
      match validateEvent ms.1 ms.2 e with
      | some _ => ms
      | none => stepPersisted ms.1 ms.2 e)
    ms

/-- Statistics about a captured span (`SpanStats` in `capture/src/lib.rs`). -/
structure SpanStats where
  entered : Nat
  exited : Nat
  is_closed : Bool

/-- Captured tracing event (`CapturedEventInner` in `capture/src/lib.rs`):
its values keyed by field name, and an optional parent span id (an arena
index, embedded as `Nat`).  The host `Metadata` reference is out of scope. -/
structure CapturedEvent where
  values : Entries String TracedValue
  parent_id : Option Nat

/-- Captured tracing span (`CapturedSpanInner` in `capture/src/lib.rs`). -/
structure CapturedSpan where
  values : Entries String TracedValue
  stats : SpanStats
  parent_id : Option Nat
  child_ids : List Nat
  event_ids : List Nat

/-- `CapturedEvent::value`: scan the value entries in order and return the
first one whose key equals the requested name (`find_map` in the source). -/
def CapturedEvent.value (e : CapturedEvent) (name : String) : Option TracedValue :=
  e.values.findSome? fun p => if p.1 = name then some p.2 else none

/-- `impl ops::Index<&str> for CapturedEvent`: `value` when it is defined,
and a panic (embedded as `Except.error`) when it is not. -/
def CapturedEvent.indexValue (e : CapturedEvent) (name : String) : Except String TracedValue :=
  match e.value name with
  | some v => Except.ok v
  | none => Except.error "field is not contained in event"

/-- `CapturedSpan::value`: same first-match scan as on events. -/
def CapturedSpan.value (s : CapturedSpan) (name : String) : Option TracedValue :=
  s.values.findSome? fun p => if p.1 = name then some p.2 else none

/-- `impl ops::Index<&str> for CapturedSpan`. -/
def CapturedSpan.indexValue (s : CapturedSpan) (name : String) : Except String TracedValue :=
  match s.value name with
  | some v => Except.ok v
  | none => Except.error "field is not contained in span"

/-- The first item of the sequence matching the predicate, together with
the items remaining after it: the state of the source's iterator after its
first `iter.find(..)` call in `Scanner::single`. -/
def findRest {α : Type} (p : α → Bool) : List α → Option (α × List α)
  | [] => none
  | x :: xs => if p x then some (x, xs) else findRest p xs

/-- `Scanner::single` from `capture/src/predicates/ext.rs`: find the first
matching item (panicking — embedded as `Except.error` — if there is none),
then keep scanning the same iterator and panic if a second item matches. -/
def Scanner.single {α : Type} (p : α → Bool) (items : List α) : Except String α :=
  match findRest p items with
  | none => Except.error "no items have matched predicate"
  | some (first, rest) =>
    match rest.find? p with
    | some _ => Except.error "multiple items match predicate"
    | none => Except.ok first

/-- Modelled from the spec: the field visitor of the missing sender module
(spec section 4.1) — walk the call site's declared field names in
declaration order and record, in that order, the fields the invocation
actually wrote, producing the `TracedValues` carried by `NewSpan` /
`NewEvent`. -/
def visitFields (declared : List String) (recorded : String → Option TracedValue) :
    TracedValues :=
  declared.foldl
    (fun acc name =>
      match recorded name with
      | some v => aupsert name v acc
      | none => acc)
    []

/-- `create_call_site` from `tunnel/src/receiver/tests.rs`: the call-site
descriptor used by the receiver tests, parameterised by its field list. -/
def create_call_site (fields : List String) : CallSiteData :=
  { kind := .span
    name := "test"
    target := "tracing_tunnel"
    level := .error
    module_path := some "receiver::tests"
    file := some "tests"
    line := some 42
    fields := fields }

/-- `CALL_SITE_DATA` from `tunnel/src/receiver/tests.rs`: a call site with
no declared fields. -/
def call_site_data : CallSiteData := create_call_site []

/-- The values map `{field0 -> Int 0, ..., field(n-1) -> Int (n-1)}` built
by the field-count tests in `tunnel/src/receiver/tests.rs`. -/
def mkValues (n : Nat) : TracedValues :=
  (List.range n).map fun i => ("field" ++ toString i, TracedValue.int (Int.ofNat i))

/-- The field-name list `field0, ..., field(n-1)` declared by the call site
in `spans_with_allowed_value_lengths`. -/
def mkFields (n : Nat) : List String :=
  (List.range n).map fun i => "field" ++ toString i

/-- A receiver that has registered call site 0 with `n` declared fields and
holds no spans. -/
def fieldsReceiver (n : Nat) : TracingEventReceiver :=
  TracingEventReceiver.new [(0, create_call_site (mkFields n))] [] []

/-- A receiver that has registered call site 0 (no declared fields) and
holds no spans, as set up by `unknown_span_errors` and
`too_many_values_error`. -/
def registeredReceiver : TracingEventReceiver :=
  TracingEventReceiver.new [(0, call_site_data)] [] []

/-- A receiver holding one persisted span (id 1, call site 0, ref count 1)
that is also reified locally. -/
def reifiedReceiver : TracingEventReceiver :=
  TracingEventReceiver.new [(0, call_site_data)]
    [(1, { metadata_id := 0, parent_id := none, ref_count := 1, values := [] })]
    [(1, { metadata_id := 0, parent_id := none, values := [] })]

/-- Event stream for the round-trip counterexample: a call site and two
root spans.  Splitting after the second event leaves the second receiver
unaware of span 1 locally, because nothing after the checkpoint mentions
span 1. -/
def splitStream : List TracingEvent :=
  [.newCallSite 0 call_site_data,
   .newSpan 1 none 0 [],
   .newSpan 2 none 0 []]

/-- A captured event with a single field, used to witness the capture
accessors. -/
def sampleEvent : CapturedEvent :=
  { values := [("i", TracedValue.int 42)], parent_id := none }

theorem alookup_aupsert_self {κ α : Type} [DecidableEq κ] (k : κ) (v : α) (l : Entries κ α) :
    alookup k (aupsert k v l) = some v := by
  induction l with
  | nil => simp [aupsert, alookup]
  | cons hd tl ih =>
    by_cases h : hd.1 = k
    · simp [aupsert, alookup, h]
    · simpa [aupsert, alookup, h] using ih

theorem alookup_aupsert_ne {κ α : Type} [DecidableEq κ] {k j : κ} (h : j ≠ k) (v : α)
    (l : Entries κ α) : alookup j (aupsert k v l) = alookup j l := by
  have hkj : ¬k = j := fun e => h e.symm
  induction l with
  | nil => simp [aupsert, alookup, hkj]
  | cons hd tl ih =>
    obtain ⟨k2, v2⟩ := hd
    by_cases h2 : k2 = k
    · subst h2
      simp [aupsert, alookup, hkj]
    · simp [aupsert, alookup, h2, ih]

theorem alookup_aremove_self {κ α : Type} [DecidableEq κ] (k : κ) (l : Entries κ α) :
    alookup k (aremove k l) = none := by
  induction l with
  | nil => simp [aremove, alookup]
  | cons hd tl ih =>
    by_cases h : hd.1 = k
    · simpa [aremove, h] using ih
    · simpa [aremove, alookup, h] using ih

theorem alookup_aremove_ne {κ α : Type} [DecidableEq κ] {k j : κ} (h : j ≠ k)
    (l : Entries κ α) : alookup j (aremove k l) = alookup j l := by
  have hkj : ¬k = j := fun e => h e.symm
  induction l with
  | nil => simp [aremove]
  | cons hd tl ih =>
    obtain ⟨k2, v2⟩ := hd
    by_cases h2 : k2 = k
    · subst h2
      simp [aremove, alookup, hkj, ih]
    · simp [aremove, alookup, h2, ih]

theorem alookup_append {κ α : Type} [DecidableEq κ] (k : κ) (l1 l2 : Entries κ α) :
    alookup k (l1 ++ l2) = ((alookup k l1).rec (alookup k l2) fun v => some v) := by
  induction l1 with
  | nil => simp [alookup]
  | cons hd tl ih =>
    by_cases h : hd.1 = k
    · simp [alookup, h]
    · simpa [alookup, h] using ih

theorem aupsert_eq_append {κ α : Type} [DecidableEq κ] {k : κ} {l : Entries κ α}
    (h : alookup k l = none) (v : α) : aupsert k v l = l ++ [(k, v)] := by
  induction l with
  | nil => simp [aupsert]
  | cons hd tl ih =>
    by_cases h2 : hd.1 = k
    · simp [alookup, h2] at h
    · simp only [alookup, h2, if_false] at h
      simp [aupsert, h2, ih h]

theorem receive_persisted (r : TracingEventReceiver) (e : TracingEvent) :
    ((receive r e).metadata, (receive r e).spans)
      = (match validateEvent r.metadata r.spans e with
         | some _ => (r.metadata, r.spans)
         | none => stepPersisted r.metadata r.spans e) := by
  unfold receive try_receive
  cases h : validateEvent r.metadata r.spans e <;> simp [h]

theorem foldl_receive_persisted (events : List TracingEvent) (r : TracingEventReceiver) :
    ((events.foldl receive r).metadata, (events.foldl receive r).spans)
      = persistedRun (r.metadata, r.spans) events := by
  induction events generalizing r with
  | nil => rfl
  | cons e rest ih =>
    have h1 : persistedRun (r.metadata, r.spans) (e :: rest)
        = persistedRun ((receive r e).metadata, (receive r e).spans) rest := by
      simp only [persistedRun, List.foldl_cons]
      rw [receive_persisted r e]
    simp only [List.foldl_cons, h1]
    exact ih (receive r e)

theorem persistedRun_append (ms : PersistedMetadata × PersistedSpans)
    (l1 l2 : List TracingEvent) :
    persistedRun ms (l1 ++ l2) = persistedRun (persistedRun ms l1) l2 := by
  simp [persistedRun, List.foldl_append]

theorem visitFields_go (recorded : String → Option TracedValue) :
    ∀ (declared : List String) (acc : TracedValues),
      declared.Nodup → (∀ n ∈ declared, alookup n acc = none) →
      declared.foldl
        (fun acc name =>
          match recorded name with
          | some v => aupsert name v acc
          | none => acc)
        acc
      = acc ++ declared.filterMap fun n => (recorded n).map fun v => (n, v) := by
  intro declared
  induction declared with
  | nil => intro acc _ _; simp
  | cons n rest ih =>
    intro acc hnodup hfresh
    have hn : n ∉ rest := (List.nodup_cons.mp hnodup).1
    have hrest : rest.Nodup := (List.nodup_cons.mp hnodup).2
    cases hr : recorded n with
    | none =>
      simp only [List.foldl_cons, hr, List.filterMap_cons, Option.map_none']
      exact ih acc hrest fun m hm => hfresh m (List.mem_cons_of_mem n hm)
    | some v =>
      have hfreshn : alookup n acc = none := hfresh n (List.mem_cons_self n rest)
      have hups : aupsert n v acc = acc ++ [(n, v)] := aupsert_eq_append hfreshn v
      have hfresh2 : ∀ m ∈ rest, alookup m (acc ++ [(n, v)]) = none := by
        intro m hm
        have hmn : ¬n = m := fun e => hn (e ▸ hm)
        rw [alookup_append]
        rw [hfresh m (List.mem_cons_of_mem n hm)]
        simp [alookup, hmn]
      simp only [List.foldl_cons, hr, hups, List.filterMap_cons, Option.map_some']
      rw [ih (acc ++ [(n, v)]) hrest hfresh2]
      simp

theorem single_eq_filter {α : Type} (p : α → Bool) (items : List α) :
    Scanner.single p items =
      match items.filter p with
      | [] => Except.error "no items have matched predicate"
      | [x] => Except.ok x
      | _ :: _ :: _ => Except.error "multiple items match predicate" := by
  induction items with
  | nil => rfl
  | cons a rest ih =>
    by_cases h : p a
    · simp only [Scanner.single, findRest, h, if_true, List.filter_cons, if_pos h]
      cases hf : rest.find? p with
      | none =>
        have hfil : rest.filter p = [] :=
          List.filter_eq_nil_iff.mpr (List.find?_eq_none.mp hf)
        rw [hfil]
      | some y =>
        have hy : y ∈ rest.filter p :=
          List.mem_filter.mpr ⟨List.mem_of_find?_eq_some hf, List.find?_some hf⟩
        cases hfil : rest.filter p with
        | nil => rw [hfil] at hy; cases hy
        | cons z zs => rfl
    · simp only [Scanner.single, findRest, h, if_false, List.filter_cons, if_neg h]
      simpa only [Scanner.single] using ih

theorem findSome_eq_find (values : Entries String TracedValue) (n : String) :
    (values.findSome? fun p => if p.1 = n then some p.2 else none)
      = ((values.find? fun p => p.1 == n).map Prod.snd) := by
  induction values with
  | nil => rfl
  | cons kv rest ih =>
    by_cases h : kv.1 = n
    · simp [List.findSome?_cons, List.find?_cons, h]
    · simp [List.findSome?_cons, List.find?_cons, h, ih]

/-- C6 (counterexample): the claim "for every supported scalar type T and
every value s of T, TracedValue::from(s).try_as::<T>() == Some(s) and
TracedValue::from(s) == s" fails at the concrete input s = f64 NaN: the
comparison `TracedValue::from(NaN) == NaN` uses IEEE equality on the
carried float, and NaN is unequal to itself, so the conjunction is false. -/
theorem claim_C6_counterexample :
    ¬(TracedValue.from_value_f64 (TracedValue.from_f64 F64.nan) = some F64.nan
        ∧ TracedValue.eq_f64 (TracedValue.from_f64 F64.nan) F64.nan = true) := by
  intro h
  exact absurd h.2 (by decide)

/-- C6 (amended): for every supported scalar type T (bool, i64, i128, u64,
u128, f64, &str) and every value s of T that is not a f64 NaN,
`TracedValue::from(s).try_as::<T>()` returns Some(s) and
`TracedValue::from(s) == s` holds. -/
theorem claim_C6_amended :
    (∀ b : Bool, TracedValue.from_value_bool (TracedValue.from_bool b) = some b
        ∧ TracedValue.eq_bool (TracedValue.from_bool b) b = true)
  ∧ (∀ x : Int, i64_min ≤ x → x ≤ i64_max →
        TracedValue.from_value_i64 (TracedValue.from_i64 x) = some x
        ∧ TracedValue.eq_i64 (TracedValue.from_i64 x) x = true)
  ∧ (∀ x : Int, TracedValue.from_value_i128 (TracedValue.from_i128 x) = some x
        ∧ TracedValue.eq_i128 (TracedValue.from_i128 x) x = true)
  ∧ (∀ n : Nat, n < 2 ^ 64 →
        TracedValue.from_value_u64 (TracedValue.from_u64 n) = some n
        ∧ TracedValue.eq_u64 (TracedValue.from_u64 n) n = true)
  ∧ (∀ n : Nat, TracedValue.from_value_u128 (TracedValue.from_u128 n) = some n
        ∧ TracedValue.eq_u128 (TracedValue.from_u128 n) n = true)
  ∧ (∀ f : F64, f ≠ F64.nan →
        TracedValue.from_value_f64 (TracedValue.from_f64 f) = some f
        ∧ TracedValue.eq_f64 (TracedValue.from_f64 f) f = true)
  ∧ (∀ s : String, TracedValue.from_value_str (TracedValue.from_str s) = some s
        ∧ TracedValue.eq_str (TracedValue.from_str s) s = true) := by
  refine ⟨?_, ?_, ?_, ?_, ?_, ?_, ?_⟩
  · intro b
    exact ⟨rfl, by simp [TracedValue.eq_bool, TracedValue.from_bool]⟩
  · intro x h1 h2
    constructor
    · simp [TracedValue.from_value_i64, TracedValue.from_i64, h1, h2]
    · simp [TracedValue.eq_i64, TracedValue.from_i64]
  · intro x
    exact ⟨rfl, by simp [TracedValue.eq_i128, TracedValue.from_i128]⟩
  · intro n h
    constructor
    · exact if_pos h
    · simp [TracedValue.eq_u64, TracedValue.from_u64]
  · intro n
    exact ⟨rfl, by simp [TracedValue.eq_u128, TracedValue.from_u128]⟩
  · intro f h
    refine ⟨rfl, ?_⟩
    cases f with
    | nan => exact absurd rfl h
    | inf b => simp [TracedValue.eq_f64, TracedValue.from_f64, F64.beq]
    | finite q => simp [TracedValue.eq_f64, TracedValue.from_f64, F64.beq]
  · intro s
    exact ⟨rfl, by simp [TracedValue.eq_str, TracedValue.from_str]⟩

/-- Witness for the amended C6, instantiated at concrete in-range inputs. -/
theorem claim_C6_witness :
    (TracedValue.from_value_i64 (TracedValue.from_i64 7) = some 7
        ∧ TracedValue.eq_i64 (TracedValue.from_i64 7) 7 = true)
  ∧ (TracedValue.from_value_u64 (TracedValue.from_u64 5) = some 5
        ∧ TracedValue.eq_u64 (TracedValue.from_u64 5) 5 = true)
  ∧ (TracedValue.from_value_f64 (TracedValue.from_f64 (F64.finite 1)) = some (F64.finite 1)
        ∧ TracedValue.eq_f64 (TracedValue.from_f64 (F64.finite 1)) (F64.finite 1) = true) :=
  ⟨claim_C6_amended.2.1 7 (by decide) (by decide),
   claim_C6_amended.2.2.2.1 5 (by decide),
   claim_C6_amended.2.2.2.2.2.1 (F64.finite 1) (by simp)⟩

/-- C7: equality of a `TracedValue` against a host scalar holds exactly
when the variant matches and the carried value equals the widened scalar
(IEEE equality for floats); `try_as` on a mismatched variant returns None
for every scalar target (bool, i64, i128, u64, u128, f64, str); and the
narrowing downcasts `try_as::<i64>` / `try_as::<u64>` succeed exactly on
carried values inside the narrow range. -/
theorem claim_C7 :
    (∀ (v : TracedValue) (b : Bool), TracedValue.eq_bool v b = true ↔ v = .bool b)
  ∧ (∀ (v : TracedValue) (x : Int), TracedValue.eq_i64 v x = true ↔ v = .int x)
  ∧ (∀ (v : TracedValue) (x : Int), TracedValue.eq_i128 v x = true ↔ v = .int x)
  ∧ (∀ (v : TracedValue) (n : Nat), TracedValue.eq_u64 v n = true ↔ v = .uint n)
  ∧ (∀ (v : TracedValue) (n : Nat), TracedValue.eq_u128 v n = true ↔ v = .uint n)
  ∧ (∀ (v : TracedValue) (f : F64),
        TracedValue.eq_f64 v f = true ↔ ∃ g, v = .float g ∧ F64.beq g f = true)
  ∧ (∀ (v : TracedValue) (s : String), TracedValue.eq_str v s = true ↔ v = .string s)
  ∧ (∀ v : TracedValue, (∀ y : Int, v ≠ .int y) →
        TracedValue.from_value_i64 v = none ∧ TracedValue.from_value_i128 v = none)
  ∧ (∀ v : TracedValue, (∀ m : Nat, v ≠ .uint m) →
        TracedValue.from_value_u64 v = none ∧ TracedValue.from_value_u128 v = none)
  ∧ (∀ v : TracedValue, (∀ b : Bool, v ≠ .bool b) → TracedValue.from_value_bool v = none)
  ∧ (∀ v : TracedValue, (∀ f : F64, v ≠ .float f) → TracedValue.from_value_f64 v = none)
  ∧ (∀ v : TracedValue, (∀ s : String, v ≠ .string s) → TracedValue.from_value_str v = none)
  ∧ (∀ x : Int,
        (i64_min ≤ x ∧ x ≤ i64_max → TracedValue.from_value_i64 (.int x) = some x)
        ∧ (¬(i64_min ≤ x ∧ x ≤ i64_max) → TracedValue.from_value_i64 (.int x) = none))
  ∧ (∀ n : Nat,
        (n < 2 ^ 64 → TracedValue.from_value_u64 (.uint n) = some n)
        ∧ (2 ^ 64 ≤ n → TracedValue.from_value_u64 (.uint n) = none)) := by
  refine ⟨?_, ?_, ?_, ?_, ?_, ?_, ?_, ?_, ?_, ?_, ?_, ?_, ?_, ?_⟩
  · intro v b; cases v <;> simp [TracedValue.eq_bool]
  · intro v x; cases v <;> simp [TracedValue.eq_i64]
  · intro v x; cases v <;> simp [TracedValue.eq_i128]
  · intro v n; cases v <;> simp [TracedValue.eq_u64]
  · intro v n; cases v <;> simp [TracedValue.eq_u128]
  · intro v f; cases v <;> simp [TracedValue.eq_f64]
  · intro v s; cases v <;> simp [TracedValue.eq_str]
  · intro v h
    cases v with
    | int y => exact absurd rfl (h y)
    | bool b => exact ⟨rfl, rfl⟩
    | uint u => exact ⟨rfl, rfl⟩
    | float f => exact ⟨rfl, rfl⟩
    | string s => exact ⟨rfl, rfl⟩
    | object o => exact ⟨rfl, rfl⟩
    | error e => exact ⟨rfl, rfl⟩
  · intro v h
    cases v with
    | uint m => exact absurd rfl (h m)
    | bool b => exact ⟨rfl, rfl⟩
    | int y => exact ⟨rfl, rfl⟩
    | float f => exact ⟨rfl, rfl⟩
    | string s => exact ⟨rfl, rfl⟩
    | object o => exact ⟨rfl, rfl⟩
    | error e => exact ⟨rfl, rfl⟩
  · intro v h
    cases v with
    | bool b => exact absurd rfl (h b)
    | int y => exact rfl
    | uint u => exact rfl
    | float f => exact rfl
    | string s => exact rfl
    | object o => exact rfl
    | error e => exact rfl
  · intro v h
    cases v with
    | float f => exact absurd rfl (h f)
    | bool b => exact rfl
    | int y => exact rfl
    | uint u => exact rfl
    | string s => exact rfl
    | object o => exact rfl
    | error e => exact rfl
  · intro v h
    cases v with
    | string s => exact absurd rfl (h s)
    | bool b => exact rfl
    | int y => exact rfl
    | uint u => exact rfl
    | float f => exact rfl
    | object o => exact rfl
    | error e => exact rfl
  · intro x
    constructor
    · intro h; simp [TracedValue.from_value_i64, h]
    · intro h; simp [TracedValue.from_value_i64, h]
  · intro n
    constructor
    · intro h; exact if_pos h
    · intro h; exact if_neg (Nat.not_lt.mpr h)

/-- Witness for C7, instantiated at concrete inputs: an out-of-range
narrowing downcast returns None, a matching-variant equality holds, and a
mismatched-variant string downcast returns None. -/
theorem claim_C7_witness :
    TracedValue.from_value_u64 (TracedValue.uint (2 ^ 64)) = none
    ∧ TracedValue.eq_bool (TracedValue.bool true) true = true
    ∧ TracedValue.from_value_str (TracedValue.int 3) = none :=
  ⟨(claim_C7.2.2.2.2.2.2.2.2.2.2.2.2.2 (2 ^ 64)).2 (by decide),
   (claim_C7.1 (TracedValue.bool true) true).mpr rfl,
   claim_C7.2.2.2.2.2.2.2.2.2.2.2.1 (TracedValue.int 3) (by simp)⟩

/-- C9: over a finite item sequence, `Scanner::single(&p)` returns the
unique item satisfying p when exactly one does, and panics (embedded as
`Except.error`) when no item or at least two items satisfy p. -/
theorem claim_C9 {α : Type} (p : α → Bool) (items : List α) :
    (∀ x, items.filter p = [x] → Scanner.single p items = Except.ok x)
  ∧ (items.countP p = 0 → ∃ msg, Scanner.single p items = Except.error msg)
  ∧ (2 ≤ items.countP p → ∃ msg, Scanner.single p items = Except.error msg) := by
  refine ⟨?_, ?_, ?_⟩
  · intro x h
    rw [single_eq_filter, h]
  · intro h
    have hfil : items.filter p = [] := by
      rw [← List.length_eq_zero, ← List.countP_eq_length_filter]
      exact h
    exact ⟨_, by rw [single_eq_filter, hfil]⟩
  · intro h
    rw [List.countP_eq_length_filter] at h
    cases hfil : items.filter p with
    | nil => rw [hfil] at h; simp at h
    | cons z zs =>
      cases zs with
      | nil => rw [hfil] at h; simp at h
      | cons w ws => exact ⟨_, by rw [single_eq_filter, hfil]⟩

/-- Witness for C9: on the list `[1, 2, 3]` with the predicate "equals 2",
which exactly one item satisfies, `single` returns 2. -/
theorem claim_C9_witness :
    Scanner.single (fun x => decide (x = 2)) [1, 2, 3] = Except.ok 2 :=
  (claim_C9 (fun x => decide (x = 2)) [1, 2, 3]).1 2 (by decide)

/-- C10: for captured spans and events, `value(n)` returns the value of the
first entry (in insertion order) whose key equals n, and indexing (`x[n]`)
returns exactly that value when it exists and panics (embedded as
`Except.error`) when it does not. -/
theorem claim_C10 :
    (∀ (e : CapturedEvent) (n : String),
        (∀ v, e.value n = some v → e.indexValue n = Except.ok v)
      ∧ (e.value n = none → ∃ msg, e.indexValue n = Except.error msg)
      ∧ e.value n = ((e.values.find? fun p => p.1 == n).map Prod.snd))
  ∧ (∀ (s : CapturedSpan) (n : String),
        (∀ v, s.value n = some v → s.indexValue n = Except.ok v)
      ∧ (s.value n = none → ∃ msg, s.indexValue n = Except.error msg)
      ∧ s.value n = ((s.values.find? fun p => p.1 == n).map Prod.snd)) := by
  constructor
  · intro e n
    refine ⟨?_, ?_, findSome_eq_find e.values n⟩
    · intro v h
      simp [CapturedEvent.indexValue, h]
    · intro h
      exact ⟨"field is not contained in event", by simp [CapturedEvent.indexValue, h]⟩
  · intro s n
    refine ⟨?_, ?_, findSome_eq_find s.values n⟩
    · intro v h
      simp [CapturedSpan.indexValue, h]
    · intro h
      exact ⟨"field is not contained in span", by simp [CapturedSpan.indexValue, h]⟩

/-- Witness for C10: indexing the sample event at its only field returns
that field's value. -/
theorem claim_C10_witness :
    sampleEvent.indexValue "i" = Except.ok (TracedValue.int 42) :=
  (claim_C10.1 sampleEvent "i").1 (TracedValue.int 42) rfl

/-- C2: when `try_receive` returns an error, the receiver state (persisted
metadata, persisted spans and local spans alike) is left unmodified; in
particular a fresh empty receiver fed `NewSpan{id 0, no parent, metadata 0,
no values}` reports `UnknownMetadataId 0` and all three structures stay
empty. -/
theorem claim_C2 :
    (∀ (r : TracingEventReceiver) (e : TracingEvent),
        (try_receive r e).1.isSome = true → (try_receive r e).2 = r)
  ∧ try_receive (TracingEventReceiver.new [] [] []) (.newSpan 0 none 0 [])
      = (some (.unknownMetadataId 0), TracingEventReceiver.new [] [] []) := by
  constructor
  · intro r e h
    unfold try_receive at h ⊢
    cases hv : validateEvent r.metadata r.spans e <;> simp [hv] at h ⊢
  · rfl

/-- Witness for C2: a reference to unknown span 5 in an empty receiver
fails, and the failing call leaves the state unchanged. -/
theorem claim_C2_witness :
    (try_receive (TracingEventReceiver.new [] [] []) (.spanEntered 5)).2
      = TracingEventReceiver.new [] [] [] :=
  claim_C2.1 (TracingEventReceiver.new [] [] []) (.spanEntered 5) rfl

/-- C4: a receiver that has registered call site 0 and holds no spans
reports `UnknownSpanId 1` for each of the six event shapes referencing the
unknown span id 1, leaving the state unchanged. -/
theorem claim_C4 :
    try_receive registeredReceiver (.spanEntered 1)
      = (some (.unknownSpanId 1), registeredReceiver)
  ∧ try_receive registeredReceiver (.spanExited 1)
      = (some (.unknownSpanId 1), registeredReceiver)
  ∧ try_receive registeredReceiver (.spanDropped 1)
      = (some (.unknownSpanId 1), registeredReceiver)
  ∧ try_receive registeredReceiver (.newSpan 42 (some 1) 0 [])
      = (some (.unknownSpanId 1), registeredReceiver)
  ∧ try_receive registeredReceiver (.newEvent 0 (some 1) [])
      = (some (.unknownSpanId 1), registeredReceiver)
  ∧ try_receive registeredReceiver (.valuesRecorded 1 [])
      = (some (.unknownSpanId 1), registeredReceiver) :=
  ⟨rfl, rfl, rfl, rfl, rfl, rfl⟩

/-- C3: with call site 0 registered and no spans held, a `NewSpan` carrying
33 distinct fields fails with `TooManyValues{actual 33, max 32}` (leaving
the state unchanged), while for every n between 0 and 32 inclusive a
`NewSpan` carrying n fields declared at its call site succeeds without
error. -/
theorem claim_C3 :
    try_receive registeredReceiver (.newSpan 0 none 0 (mkValues 33))
      = (some (.tooManyValues 33 32), registeredReceiver)
  ∧ ∀ n : Nat, n ≤ 32 →
      (try_receive (fieldsReceiver n) (.newSpan 0 none 0 (mkValues n))).1 = none := by
  constructor
  · rfl
  · intro n hn
    have hlen : (mkValues n).length = n := by
      simp only [mkValues, List.length_map, List.length_range]
    have hval : validateEvent (fieldsReceiver n).metadata (fieldsReceiver n).spans
        (.newSpan 0 none 0 (mkValues n)) = none := by
      have hng : ¬n > 32 := by omega
      simp only [validateEvent, fieldsReceiver, TracingEventReceiver.new, alookup,
        if_pos rfl, Option.isNone_some, Bool.false_eq_true, if_false, lengthCheck, hlen]
      rw [if_neg hng]
      simp
    simp [try_receive, hval]

/-- Witness for C3, instantiated at the boundary n = 32. -/
theorem claim_C3_witness :
    (try_receive (fieldsReceiver 32) (.newSpan 0 none 0 (mkValues 32))).1 = none :=
  claim_C3.2 32 (by decide)

/-- C5: the values the sender emits for a span or event list the fields in
call-site declaration order restricted to the fields actually recorded; in
particular a `debug!(message, i, current)` call site always yields the
fields message (Object), i (UInt), current (UInt), in that order. -/
theorem claim_C5 :
    (∀ (declared : List String) (recorded : String → Option TracedValue),
        declared.Nodup →
        visitFields declared recorded
          = declared.filterMap fun n => (recorded n).map fun v => (n, v))
  ∧ (∀ (dbg : String) (iv cv : Nat),
        visitFields ["message", "i", "current"]
          (fun n =>
            if n = "message" then some (TracedValue.object dbg)
            else if n = "i" then some (TracedValue.uint iv)
            else if n = "current" then some (TracedValue.uint cv)
            else none)
          = [("message", TracedValue.object dbg),
             ("i", TracedValue.uint iv),
             ("current", TracedValue.uint cv)]) := by
  constructor
  · intro declared recorded hnodup
    simpa using visitFields_go recorded declared [] hnodup (by intro n _; rfl)
  · intro dbg iv cv
    simp [visitFields, aupsert]

/-- Witness for C5: a two-field call site recording only its first field
yields exactly that field. -/
theorem claim_C5_witness :
    visitFields ["a", "b"]
        (fun n => if n = "a" then some (TracedValue.bool true) else none)
      = [("a", TracedValue.bool true)] := by
  rw [claim_C5.1 ["a", "b"]
    (fun n => if n = "a" then some (TracedValue.bool true) else none) (by decide)]
  rfl

/-- C8: for a persisted span that is reified in the current session,
`SpanExited` succeeds and leaves the receiver state — in particular both
span tables — completely unchanged; `SpanDropped` on a span whose reference
count reaches zero succeeds, removes the span from both `PersistedSpans`
and the local table, and leaves every other entry of both tables (and the
metadata) unchanged. -/
theorem claim_C8 :
    (∀ (r : TracingEventReceiver) (id : Nat),
        (alookup id r.spans).isSome = true → (alookup id r.local_spans).isSome = true →
        try_receive r (.spanExited id) = (none, r))
  ∧ (∀ (r : TracingEventReceiver) (id : Nat) (sd : SpanData),
        alookup id r.spans = some sd → sd.ref_count = 1 →
        (try_receive r (.spanDropped id)).1 = none
        ∧ alookup id (try_receive r (.spanDropped id)).2.spans = none
        ∧ alookup id (try_receive r (.spanDropped id)).2.local_spans = none
        ∧ (try_receive r (.spanDropped id)).2.metadata = r.metadata
        ∧ ∀ j, j ≠ id →
            alookup j (try_receive r (.spanDropped id)).2.spans = alookup j r.spans
            ∧ alookup j (try_receive r (.spanDropped id)).2.local_spans
                = alookup j r.local_spans) := by
  constructor
  · intro r id hspan hlocal
    have hval : validateEvent r.metadata r.spans (.spanExited id) = none := by
      simp [validateEvent, Option.isNone_iff_eq_none]
      intro h
      rw [h] at hspan
      cases hspan
    have hreify : stepLocal r.spans r.local_spans (.spanExited id) = r.local_spans := by
      simp only [stepLocal, reify, hlocal, if_true]
    simp only [try_receive, hval, stepPersisted, hreify]
  · intro r id sd hsd hrc
    have hval : validateEvent r.metadata r.spans (.spanDropped id) = none := by
      simp [validateEvent, hsd]
    have hstep : stepPersisted r.metadata r.spans (.spanDropped id)
        = (r.metadata, aremove id r.spans) := by
      simp [stepPersisted, hsd, hrc]
    have hlocal : stepLocal (aremove id r.spans) r.local_spans (.spanDropped id)
        = aremove id r.local_spans := by
      simp [stepLocal, alookup_aremove_self]
    refine ⟨?_, ?_, ?_, ?_, ?_⟩
    · simp [try_receive, hval]
    · simp [try_receive, hval, hstep, alookup_aremove_self]
    · simp [try_receive, hval, hstep, hlocal, alookup_aremove_self]
    · simp [try_receive, hval, hstep]
    · intro j hj
      constructor
      · simp [try_receive, hval, hstep, alookup_aremove_ne hj]
      · simp [try_receive, hval, hstep, hlocal, alookup_aremove_ne hj]

/-- Witness for C8, on a receiver holding one reified persisted span. -/
theorem claim_C8_witness :
    try_receive reifiedReceiver (.spanExited 1) = (none, reifiedReceiver)
    ∧ alookup 1 (try_receive reifiedReceiver (.spanDropped 1)).2.spans = none :=
  ⟨claim_C8.1 reifiedReceiver 1 rfl rfl,
   (claim_C8.2 reifiedReceiver 1
      { metadata_id := 0, parent_id := none, ref_count := 1, values := [] }
      rfl rfl).2.1⟩

/-- C1 (counterexample): the round-trip claim fails as stated.  For the
stream `splitStream` split after its second event, the restarted receiver
never re-reifies span 1 (nothing after the checkpoint references it), so
its final `LocalSpans` holds only span 2 while the single uninterrupted
receiver holds spans 1 and 2: the final states differ in their reified
spans. -/
theorem claim_C1_counterexample : runSplit splitStream 2 ≠ runAll splitStream := by
  intro h
  have h1 : (runSplit splitStream 2).local_spans.length = 1 := rfl
  have h2 : (runAll splitStream).local_spans.length = 2 := rfl
  rw [h, h2] at h1
  cases h1

/-- C1 (amended): splitting any event stream at any point, persisting the
metadata and spans, and resuming with a freshly constructed receiver yields
the same final persisted metadata and persisted spans (and hence the same
recorded values) as a single uninterrupted receiver; the session-local
table of reified spans may be smaller after a restart, since only spans
referenced after the checkpoint are re-reified. -/
theorem claim_C1_amended (events : List TracingEvent) (i : Nat) :
    (runSplit events i).metadata = (runAll events).metadata
    ∧ (runSplit events i).spans = (runAll events).spans := by
  have h1 := foldl_receive_persisted (events.take i) (TracingEventReceiver.new [] [] [])
  have hpair : ((runSplit events i).metadata, (runSplit events i).spans)
      = ((runAll events).metadata, (runAll events).spans) :=
    calc ((runSplit events i).metadata, (runSplit events i).spans)
        = persistedRun
            (((events.take i).foldl receive (TracingEventReceiver.new [] [] [])).metadata,
             ((events.take i).foldl receive (TracingEventReceiver.new [] [] [])).spans)
            (events.drop i) := foldl_receive_persisted (events.drop i) _
      _ = persistedRun (persistedRun ([], []) (events.take i)) (events.drop i) := by
            rw [h1]; rfl
      _ = persistedRun ([], []) (events.take i ++ events.drop i) :=
            (persistedRun_append ([], []) (events.take i) (events.drop i)).symm
      _ = persistedRun ([], []) events := by rw [List.take_append_drop]
      _ = ((runAll events).metadata, (runAll events).spans) :=
            (foldl_receive_persisted events (TracingEventReceiver.new [] [] [])).symm
  exact ⟨congrArg Prod.fst hpair, congrArg Prod.snd hpair⟩
